import Mathlib

/-!
Shallow embedding of the reconciliation core of a Terraform provider for
Kubernetes Jobs, together with the generic validation helpers it vendors.

Sources embedded:
* `kubernetes/resource_kubernetes_job.go` — the CRUD driver for the Job
  resource (Read, Update, Delete, Exists and the delete-confirmation
  polling loop).
* `vendor/github.com/hashicorp/terraform/helper/validation/validation.go`
  — the generic value validators.

Remote API calls, the JSON marshaller and the regular-expression engine are
external collaborators; they are modelled as explicit outcome parameters.
Go's dynamically typed `interface` values are modelled by the inductive
type `GoVal`; a Go type assertion `v.(T)` that fails raises a run-time
panic, which the embedding makes explicit in `ValidatorOutcome.panicked`
and `ReadResult.panicked`.
-/

/-- A dynamically typed Go `interface` value, as far as the embedded code
inspects one: machine integers, strings, booleans, generic lists and nil. -/
inductive GoVal where
  | int (n : Int)
  | str (s : String)
  | bool (b : Bool)
  | list (xs : List GoVal)
  | nil

/-- `true` exactly when the Go type assertion `v.(int)` would succeed. -/
def GoVal.isInt : GoVal → Bool
  | .int _ => true
  | _ => false

/-- `true` exactly when the Go type assertion `v.(string)` would succeed. -/
def GoVal.isStr : GoVal → Bool
  | .str _ => true
  | _ => false

/-- `true` exactly when the Go type assertion `v.([]interface)` would succeed. -/
def GoVal.isList : GoVal → Bool
  | .list _ => true
  | _ => false

/-- The outcome of running one of the `SchemaValidateFunc` validators: either
a normal return of `(warnings, errors)` — errors modelled by their message
strings — or a run-time panic (a failed unchecked type assertion). -/
inductive ValidatorOutcome where
  | returns (ws : List String) (es : List String)
  | panicked (msg : String)
deriving DecidableEq, Repr

/-- The error list of an outcome (empty for a panic). -/
def ValidatorOutcome.errors : ValidatorOutcome → List String
  | .returns _ es => es
  | .panicked _ => []

/-- Message of the panic raised by a failed Go type assertion. -/
def interfaceConversionMsg : String := "interface conversion"

/-- The "expected type … to be int" message of the checked int validators. -/
def typeErrorInt (k : String) : String := "expected type of " ++ k ++ " to be int"

/-- The "expected type … to be string" message of the checked string validators. -/
def typeErrorString (k : String) : String := "expected type of " ++ k ++ " to be string"

/-- `IntBetween` from validation.go: value must be an int in `[lo, hi]`. -/
def IntBetween (lo hi : Int) (i : GoVal) (k : String) : ValidatorOutcome :=
  match i with
  | .int v =>
    if v < lo ∨ v > hi then
      .returns [] ["expected " ++ k ++ " to be in the range (" ++ toString lo ++
        " - " ++ toString hi ++ "), got " ++ toString v]
    else .returns [] []
  | _ => .returns [] [typeErrorInt k]

/-- `IntAtLeast` from validation.go: value must be an int, at least `lo`. -/
def IntAtLeast (lo : Int) (i : GoVal) (k : String) : ValidatorOutcome :=
  match i with
  | .int v =>
    if v < lo then
      .returns [] ["expected " ++ k ++ " to be at least (" ++ toString lo ++
        "), got " ++ toString v]
    else .returns [] []
  | _ => .returns [] [typeErrorInt k]

/-- `IntAtMost` from validation.go: value must be an int, at most `hi`. -/
def IntAtMost (hi : Int) (i : GoVal) (k : String) : ValidatorOutcome :=
  match i with
  | .int v =>
    if v > hi then
      .returns [] ["expected " ++ k ++ " to be at most (" ++ toString hi ++
        "), got " ++ toString v]
    else .returns [] []
  | _ => .returns [] [typeErrorInt k]

/-- Go's `%v` rendering of a string slice: entries separated by spaces
inside square brackets, as printed by `fmt.Errorf` in `StringInSlice`. -/
def goStringSlice (valid : List String) : String :=
  "[" ++ String.intercalate " " valid ++ "]"

/-- `StringInSlice` from validation.go: value must be a string equal to some
element of `valid`, comparing lowercased when `ignoreCase` is set. -/
def StringInSlice (valid : List String) (ignoreCase : Bool) (i : GoVal)
    (k : String) : ValidatorOutcome :=
  match i with
  | .str v =>
    if valid.any (fun str => v = str || (ignoreCase && v.toLower == str.toLower)) then
      .returns [] []
    else
      .returns [] ["expected " ++ k ++ " to be one of " ++ goStringSlice valid ++
        ", got " ++ v]
  | _ => .returns [] [typeErrorString k]

/-- `StringLenBetween` from validation.go: value must be a string whose
length lies in `[lo, hi]`. -/
def StringLenBetween (lo hi : Int) (i : GoVal) (k : String) : ValidatorOutcome :=
  match i with
  | .str v =>
    if (v.length : Int) < lo ∨ (v.length : Int) > hi then
      .returns [] ["expected length of " ++ k ++ " to be in the range (" ++
        toString lo ++ " - " ++ toString hi ++ "), got " ++ v]
    else .returns [] []
  | _ => .returns [] [typeErrorString k]

/-- Split a character list at every occurrence of `c`, keeping empty pieces,
as Go's `strings.Split` does on a one-character separator. -/
def splitOnChar (c : Char) : List Char → List (List Char)
  | [] => [[]]
  | x :: xs =>
    if x = c then [] :: splitOnChar c xs
    else
      match splitOnChar c xs with
      | [] => [[x]]
      | p :: ps => (x :: p) :: ps

/-- Split a character list at the first occurrence of `c`, or return `none`
when `c` does not occur — Go `net.ParseCIDR`'s search for the first slash. -/
def breakAtFirst (c : Char) : List Char → Option (List Char × List Char)
  | [] => none
  | x :: xs =>
    if x = c then some ([], xs)
    else (breakAtFirst c xs).map (fun p => (x :: p.1, p.2))

/-- `true` when the character list is a nonempty run of decimal digits
(Go's `dtoi` consuming the whole field). -/
def allDigits (cs : List Char) : Bool :=
  !cs.isEmpty && cs.all Char.isDigit

/-- Decimal value of a digit run, as Go's `dtoi` computes it. -/
def decNat (cs : List Char) : Nat :=
  cs.foldl (fun n c => n * 10 + (c.toNat - 48)) 0

/-- Go `net.parseIPv4` on the address part of a CIDR literal: four
dot-separated decimal fields, each at most 255; the result is the address
as a 32-bit value. -/
def parseIPv4 (cs : List Char) : Option Nat :=
  match splitOnChar '.' cs with
  | [a, b, c, d] =>
    if allDigits a && allDigits b && allDigits c && allDigits d then
      let va := decNat a
      let vb := decNat b
      let vc := decNat c
      let vd := decNat d
      if va ≤ 255 && vb ≤ 255 && vc ≤ 255 && vd ≤ 255 then
        some (va * 16777216 + vb * 65536 + vc * 256 + vd)
      else none
    else none
  | _ => none

/-- Go `net.ParseCIDR` restricted to IPv4 literals: split at the first
slash, parse the address and a prefix length `0 ≤ n ≤ 32`; returns the
address and the prefix length. -/
def parseCIDR (s : String) : Option (Nat × Nat) :=
  match breakAtFirst '/' s.data with
  | none => none
  | some (addr, mask) =>
    match parseIPv4 addr with
    | none => none
    | some ip =>
      if allDigits mask && decNat mask ≤ 32 then some (ip, decNat mask)
      else none

/-- `ip.Mask(CIDRMask(ones, 32))`: keep the top `ones` bits of the address. -/
def maskIP (ip ones : Nat) : Nat :=
  ip / 2 ^ (32 - ones) * 2 ^ (32 - ones)

/-- Go `IP.String()` for an IPv4 address value: dotted decimal. -/
def ipToString (ip : Nat) : String :=
  toString (ip / 16777216 % 256) ++ "." ++ toString (ip / 65536 % 256) ++ "." ++
    toString (ip / 256 % 256) ++ "." ++ toString (ip % 256)

/-- Go `IPNet.String()` for the network produced by `ParseCIDR`: the masked
address in dotted decimal followed by a slash and the prefix length. -/
def ipNetString (ip ones : Nat) : String :=
  ipToString (maskIP ip ones) ++ "/" ++ toString ones

/-- The out-of-bound prefix-length message emitted by `CIDRNetwork`. -/
def sigbitsMsg (lo hi : Int) (k : String) (sigbits : Nat) : String :=
  "expected \"" ++ k ++ "\" to contain a network CIDR with between " ++
    toString lo ++ " and " ++ toString hi ++ " significant bits, got: " ++
    toString sigbits

/-- The non-canonical-network message emitted by `CIDRNetwork`, naming the
canonical (masked) form. -/
def canonicalMsg (k netStr v : String) : String :=
  "expected " ++ k ++ " to contain a valid network CIDR, expected " ++
    netStr ++ ", got " ++ v

/-- `CIDRNetwork` from validation.go: value must be a string in canonical
CIDR network notation whose prefix length lies in `[lo, hi]`; the parse
check, the canonical-form check and the prefix-length check accumulate
errors independently after a successful parse. -/
def CIDRNetwork (lo hi : Int) (i : GoVal) (k : String) : ValidatorOutcome :=
  match i with
  | .str v =>
    match parseCIDR v with
    | none =>
      .returns [] ["expected " ++ k ++ " to contain a valid CIDR, got: " ++ v ++
        " with err: invalid CIDR address: " ++ v]
    | some (ip, ones) =>
      let es1 := if v ≠ ipNetString ip ones then [canonicalMsg k (ipNetString ip ones) v] else []
      let es2 := if (ones : Int) < lo ∨ (ones : Int) > hi then [sigbitsMsg lo hi k ones] else []
      .returns [] (es1 ++ es2)
  | _ => .returns [] [typeErrorString k]

/-- The duplicate-entry message emitted by `ValidateListUniqueStrings`. -/
def dupMsg (k v : String) : String :=
  "\"" ++ k ++ "\": duplicate entry - " ++ v

/-- The elements of a Go `[]interface` value as strings, or `none` when
some element fails the `v.(string)` assertion. -/
def allStrings : List GoVal → Option (List String)
  | [] => some []
  | .str s :: rest => (allStrings rest).map (s :: ·)
  | _ => none

/-- A list paired with positions starting at `n`, mirroring the index
variable of a Go `range` loop. -/
def enumFrom (n : Nat) : List String → List (Nat × String)
  | [] => []
  | s :: rest => (n, s) :: enumFrom (n + 1) rest

/-- The errors of the doubly nested `range` loop of
`ValidateListUniqueStrings`: one duplicate message per ordered pair of
distinct positions holding equal strings. -/
def dupPairErrors (k : String) (ss : List String) : List String :=
  (enumFrom 0 ss).flatMap (fun p =>
    (enumFrom 0 ss).flatMap (fun q =>
      if p.2 = q.2 ∧ p.1 ≠ q.1 then [dupMsg k p.2] else []))

/-- `ValidateListUniqueStrings` from validation.go. The unchecked assertions
`v.([]interface)` and `v1.(string)` panic on a non-list value and on a
non-string element; otherwise the nested loops accumulate one duplicate
error per ordered duplicate pair. -/
def ValidateListUniqueStrings (v : GoVal) (k : String) : ValidatorOutcome :=
  match v with
  | .list xs =>
    match allStrings xs with
    | some ss => .returns [] (dupPairErrors k ss)
    | none => .panicked interfaceConversionMsg
  | _ => .panicked interfaceConversionMsg

/-- `ValidateRegexp` from validation.go. The regular-expression engine
(`regexp.Compile`) is an external collaborator, abstracted as `compileErr`,
which yields the compilation error message for an invalid pattern. The
unchecked assertion `v.(string)` panics on a non-string value. -/
def ValidateRegexp (compileErr : String → Option String) (v : GoVal)
    (k : String) : ValidatorOutcome :=
  match v with
  | .str s =>
    match compileErr s with
    | some e => .returns [] ["\"" ++ k ++ "\": " ++ e]
    | none => .returns [] []
  | _ => .panicked interfaceConversionMsg

/-- An error value from the Kubernetes client, as far as the driver inspects
one: either a typed API status error carrying an HTTP status code (Go's
`*errors.StatusError`) or any other error, identified by its message. -/
inductive GoError where
  | statusError (code : Nat) (msg : String)
  | otherError (msg : String)
deriving DecidableEq, Repr

/-- The driver's NotFound test: the type assertion
`err.(*errors.StatusError)` succeeds and `ErrStatus.Code == 404`. -/
def isNotFound : GoError → Bool
  | .statusError code _ => code == 404
  | .otherError _ => false

/-- Modelled from the spec: `buildId` (the identifier builder called by the
driver) is not under the embedded sources; the spec describes the
identifier as a single opaque token encoding namespace and name, losslessly
parseable, supporting an empty namespace. It is modelled as
`namespace/name` with a slash separator. -/
def buildId (nspace name : String) : String :=
  nspace ++ "/" ++ name

/-- Modelled from the spec: `idParts` (the identifier parser called by the
driver) is not under the embedded sources; the spec requires it to be the
exact inverse of `buildId` on valid pairs and to fail with an
InvalidIdentifier error on a malformed identifier. It splits on the slash
separator and requires exactly two parts. -/
def idParts (id : String) : Except GoError (String × String) :=
  match splitOnChar '/' id.data with
  | [nspace, name] => .ok (String.mk nspace, String.mk name)
  | _ => .error (.otherError ("Unexpected ID format (" ++ id ++ "), expected namespace/name"))

/-- A label selector, as far as the driver inspects one: its
`MatchLabels` map, modelled as an association list. -/
structure LabelSelector where
  matchLabels : List (String × String)
deriving DecidableEq, Repr

/-- The job spec fields the driver inspects: the selector pointer, which
may be nil (`none`). -/
structure JobSpecObj where
  selector : Option LabelSelector
deriving DecidableEq, Repr

/-- The object metadata fields the driver inspects: name, namespace and the
labels map, modelled as an association list. -/
structure ObjectMeta where
  name : String
  nspace : String
  labels : List (String × String)
deriving DecidableEq, Repr

/-- A Kubernetes Job object as returned by the remote API, restricted to
the fields the driver reads or rewrites. -/
structure Job where
  metadata : ObjectMeta
  spec : JobSpecObj
deriving DecidableEq, Repr

/-- Lookup in a labels map: the value at the first matching key. -/
def lookupLabel (ls : List (String × String)) (key : String) : Option String :=
  match ls with
  | [] => none
  | p :: rest => if p.1 = key then some p.2 else lookupLabel rest key

/-- The guarded label removal of the read path: `if _, ok := labels[key];
ok { delete(labels, key) }` — remove the key only when it is present. -/
def deleteLabelIfPresent (ls : List (String × String)) (key : String) :
    List (String × String) :=
  if (lookupLabel ls key).isSome then ls.filter (fun p => p.1 != key) else ls

/-- `resourceKubernetesJobExists`: parse the identifier, call the remote
get; a 404 status error maps to `(false, none)`, any other error to
`(true, that error)`, a readable object to `(true, none)`. The remote get
is abstracted as a function of namespace and name. -/
def resourceKubernetesJobExists (id : String)
    (get : String → String → Except GoError Job) : Bool × Option GoError :=
  match idParts id with
  | .error e => (false, some e)
  | .ok (nspace, name) =>
    match get nspace name with
    | .error e => if isNotFound e then (false, none) else (true, some e)
    | .ok _ => (true, none)

/-- A JSON-Patch operation of the update path's ChangeSet. -/
structure PatchOp where
  op : String
  path : String
  value : Option String
deriving DecidableEq, Repr

/-- The environment of one `resourceKubernetesJobUpdate` invocation: the
stored identifier, the change flag for the spec field, the outcome of the
two ChangeSet builders, and the external marshaller, remote patch call and
follow-up read, abstracted as outcome functions. -/
structure UpdateEnv where
  id : String
  hasChangeSpec : Bool
  metaOps : List PatchOp
  specOps : Except GoError (List PatchOp)
  marshal : List PatchOp → Except String String
  patch : String → Except GoError Job
  readResult : Except GoError Unit

/-- The ChangeSet assembled by the update path: the metadata operations
always, with the spec operations appended only when the spec field changed
(`patchJobSpec` runs, and its error aborts, only in that case). -/
def combinedOps (env : UpdateEnv) : Except GoError (List PatchOp) :=
  if env.hasChangeSpec then
    match env.specOps with
    | .error e => .error e
    | .ok specOps => .ok (env.metaOps ++ specOps)
  else .ok env.metaOps

/-- `resourceKubernetesJobUpdate`: parse the identifier, assemble the
ChangeSet, marshal it, and only on successful marshalling issue the remote
patch call, then re-read. The second component records the ChangeSet the
remote patch call was issued with, `none` when no patch call was issued. -/
def resourceKubernetesJobUpdate (env : UpdateEnv) :
    Except GoError Unit × Option (List PatchOp) :=
  match idParts env.id with
  | .error e => (.error e, none)
  | .ok _ =>
    match combinedOps env with
    | .error e => (.error e, none)
    | .ok ops =>
      match env.marshal ops with
      | .error msg =>
        (.error (.otherError ("Failed to marshal update operations: " ++ msg)), none)
      | .ok data =>
        match env.patch data with
        | .error e => (.error e, some ops)
        | .ok _ => (env.readResult, some ops)

/-- The outcome of one `resourceKubernetesJobRead` invocation: a normal
error return, a run-time panic (nil-pointer dereference), or success with
the server object as projected into configuration state. -/
inductive ReadResult where
  | failed (e : GoError)
  | panicked (msg : String)
  | ok (projected : Job)
deriving DecidableEq, Repr

/-- Message of the panic raised by dereferencing a nil selector pointer. -/
def nilDerefMsg : String := "invalid memory address or nil pointer dereference"

/-- The label-normalization block of the read path. When the configuration
has `manual_selector` set (`GetOk` succeeds), the object passes through
unchanged. Otherwise the auto-injected labels `controller-uid` and
`job-name` are removed from the object's metadata labels, and
`controller-uid` from the selector's match labels — where
`job.Spec.Selector.MatchLabels` dereferences the selector pointer, a
run-time panic (`none`) when the selector is nil. -/
def normalizeJobLabels (manualSelectorSet : Bool) (job : Job) : Option Job :=
  if manualSelectorSet then some job
  else
    let labels1 := deleteLabelIfPresent job.metadata.labels "controller-uid"
    let labels2 := deleteLabelIfPresent labels1 "job-name"
    match job.spec.selector with
    | none => none
    | some sel =>
      let m := deleteLabelIfPresent sel.matchLabels "controller-uid"
      some { metadata := { job.metadata with labels := labels2 },
             spec := { selector := some { matchLabels := m } } }

/-- `resourceKubernetesJobRead`: parse the identifier, call the remote get,
surface its error, apply `normalizeJobLabels`, and project the resulting
object into configuration state. `manualSelectorSet` is
`GetOk("spec.0.manual_selector")` on the configuration; the remote get is
abstracted as a function of namespace and name. -/
def resourceKubernetesJobRead (id : String) (manualSelectorSet : Bool)
    (get : String → String → Except GoError Job) : ReadResult :=
  match idParts id with
  | .error e => .failed e
  | .ok (nspace, name) =>
    match get nspace name with
    | .error e => .failed e
    | .ok job =>
      match normalizeJobLabels manualSelectorSet job with
      | none => .panicked nilDerefMsg
      | some projected => .ok projected

/-- The value a delete-poll closure hands back to the retry combinator:
nothing (success), a retryable error, or a non-retryable error. -/
inductive RetryErrorKind where
  | retryable (msg : String)
  | nonRetryable (e : GoError)
deriving DecidableEq, Repr

/-- The closure passed to `resource.Retry` by the delete path: get the
object; a 404 status error is success (`none`), any other error is
non-retryable, and a readable object is the retryable "still exists"
condition. -/
def deletePollStep (name : String) (got : Except GoError Job) :
    Option RetryErrorKind :=
  match got with
  | .error e =>
    if isNotFound e then none else some (.nonRetryable e)
  | .ok _ => some (.retryable ("Job " ++ name ++ " still exists"))

/-- Terminal outcome of the bounded polling loop. -/
inductive RetryResult where
  | success
  | fatal (e : GoError)
  | timeout
deriving DecidableEq, Repr

/-- Modelled from the spec: the `resource.Retry` combinator (a vendored
helper not under the embedded sources) runs the closure against successive
remote outcomes; success stops the loop, a non-retryable error aborts it
immediately, a retryable error backs off and retries, and exhausting the
1-minute deadline yields the timeout outcome. The argument list holds the
successive remote get outcomes the deadline has room for; an exhausted
list is the deadline elapsing. -/
def retryLoop (name : String) : List (Except GoError Job) → RetryResult
  | [] => .timeout
  | got :: rest =>
    match deletePollStep name got with
    | none => .success
    | some (.nonRetryable e) => .fatal e
    | some (.retryable _) => retryLoop name rest

/-- The DeleteTimeout error the delete path surfaces when the polling loop
exhausts its 1-minute deadline, carrying the last retryable condition. -/
def deleteTimeoutError (name : String) : GoError :=
  .otherError ("timeout while waiting for resource to be gone (last error: Job " ++
    name ++ " still exists)")

/-- `resourceKubernetesJobDelete`: parse the identifier, issue the remote
delete and surface its error, then run the polling loop; only when the
loop confirms deletion is the stored identifier cleared. The result pairs
the returned error outcome with the final stored identifier. The remote
delete outcome and the successive poll outcomes are abstracted as
arguments. -/
def resourceKubernetesJobDelete (id : String) (del : Except GoError Unit)
    (polls : List (Except GoError Job)) : Except GoError Unit × String :=
  match idParts id with
  | .error e => (.error e, id)
  | .ok (_, name) =>
    match del with
    | .error e => (.error e, id)
    | .ok _ =>
      match retryLoop name polls with
      | .success => (.ok (), "")
      | .fatal e => (.error e, id)
      | .timeout => (.error (deleteTimeoutError name), id)

theorem splitOnChar_of_not_mem {c : Char} {l : List Char} (h : c ∉ l) :
    splitOnChar c l = [l] := by
  induction l with
  | nil => rfl
  | cons x xs ih =>
    have hx : ¬x = c := fun hxc => h (by simp [hxc])
    have hxs : c ∉ xs := fun hm => h (List.mem_cons_of_mem _ hm)
    simp [splitOnChar, hx, ih hxs]

theorem splitOnChar_sep {c : Char} {l r : List Char} (hl : c ∉ l) (hr : c ∉ r) :
    splitOnChar c (l ++ c :: r) = [l, r] := by
  induction l with
  | nil => simp [splitOnChar, splitOnChar_of_not_mem hr]
  | cons x xs ih =>
    have hx : ¬x = c := fun hxc => hl (by simp [hxc])
    have hxs : c ∉ xs := fun hm => hl (List.mem_cons_of_mem _ hm)
    simp only [List.cons_append, splitOnChar, if_neg hx]
    rw [show xs.append (c :: r) = xs ++ c :: r from rfl, ih hxs]

theorem idParts_ne_empty {id : String} {p : String × String}
    (h : idParts id = .ok p) : id ≠ "" := by
  intro he
  rw [he] at h
  exact Except.noConfusion h

/-- C7: parsing the identifier built from any valid (namespace, name) pair —
valid meaning neither part contains the separator, which holds for the
slash-free DNS names Kubernetes accepts, and includes the empty
namespace — returns exactly that pair. -/
theorem claim_C7_id_roundtrip (nspace name : String)
    (h1 : '/' ∉ nspace.data) (h2 : '/' ∉ name.data) :
    idParts (buildId nspace name) = .ok (nspace, name) := by
  have hdata : (nspace ++ "/" ++ name).data = nspace.data ++ '/' :: name.data := by
    have hs : ("/" : String).data = ['/'] := rfl
    simp [String.data_append, hs]
  unfold buildId idParts
  rw [hdata, splitOnChar_sep h1 h2]

theorem claim_C7_id_roundtrip_witness :
    idParts (buildId "default" "myjob") = .ok ("default", "myjob") ∧
    idParts (buildId "" "alpha") = .ok ("", "alpha") :=
  ⟨claim_C7_id_roundtrip "default" "myjob" (by decide) (by decide),
   claim_C7_id_roundtrip "" "alpha" (by decide) (by decide)⟩

/-- C3: for every identifier that parses and every remote get outcome, the
Exists operation maps a 404 status error from the remote get to
`(false, none)` and any other remote get error to `(true, that error)`. -/
theorem claim_C3_exists_error_mapping (id : String)
    (get : String → String → Except GoError Job) (nspace name : String)
    (hid : idParts id = .ok (nspace, name)) :
    (∀ e, get nspace name = .error e → isNotFound e = true →
      resourceKubernetesJobExists id get = (false, none)) ∧
    (∀ e, get nspace name = .error e → isNotFound e = false →
      resourceKubernetesJobExists id get = (true, some e)) := by
  constructor <;> intro e hget hnf <;>
    simp [resourceKubernetesJobExists, hid, hget, hnf]

theorem claim_C3_exists_error_mapping_witness :
    resourceKubernetesJobExists "ns/job"
      (fun _ _ => .error (.statusError 404 "not found")) = (false, none) ∧
    resourceKubernetesJobExists "ns/job"
      (fun _ _ => .error (.otherError "connection refused")) =
      (true, some (.otherError "connection refused")) :=
  ⟨(claim_C3_exists_error_mapping "ns/job"
      (fun _ _ => .error (.statusError 404 "not found")) "ns" "job" rfl).1
      (.statusError 404 "not found") rfl (by decide),
   (claim_C3_exists_error_mapping "ns/job"
      (fun _ _ => .error (.otherError "connection refused")) "ns" "job" rfl).2
      (.otherError "connection refused") rfl (by decide)⟩

/-- `true` when a poll outcome is a readable object (no error). -/
def isReadablePoll : Except GoError Job → Bool
  | .ok _ => true
  | .error _ => false

/-- C1: over every sequence of remote get outcomes, the delete-confirmation
loop succeeds as soon as a poll returns a 404 status error, regardless of
any later outcomes; aborts with the first non-404 error, regardless of any
later outcomes; and returns the timeout outcome — surfaced as DeleteTimeout
— when every outcome the 1-minute deadline has room for is a readable
object. -/
theorem claim_C1_delete_polling :
    (∀ (name : String) (pre post : List (Except GoError Job)) (e : GoError),
      pre.all isReadablePoll = true → isNotFound e = true →
      retryLoop name (pre ++ .error e :: post) = .success) ∧
    (∀ (name : String) (pre post : List (Except GoError Job)) (e : GoError),
      pre.all isReadablePoll = true → isNotFound e = false →
      retryLoop name (pre ++ .error e :: post) = .fatal e) ∧
    (∀ (name : String) (polls : List (Except GoError Job)),
      polls.all isReadablePoll = true → retryLoop name polls = .timeout) := by
  refine ⟨?_, ?_, ?_⟩
  · intro name pre post e hpre hnf
    induction pre with
    | nil => simp [retryLoop, deletePollStep, hnf]
    | cons g gs ih =>
      simp only [List.all_cons, Bool.and_eq_true] at hpre
      obtain ⟨hg, hgs⟩ := hpre
      cases g with
      | error e2 => simp [isReadablePoll] at hg
      | ok j => simpa [retryLoop, deletePollStep] using ih hgs
  · intro name pre post e hpre hnf
    induction pre with
    | nil => simp [retryLoop, deletePollStep, hnf]
    | cons g gs ih =>
      simp only [List.all_cons, Bool.and_eq_true] at hpre
      obtain ⟨hg, hgs⟩ := hpre
      cases g with
      | error e2 => simp [isReadablePoll] at hg
      | ok j => simpa [retryLoop, deletePollStep] using ih hgs
  · intro name polls hall
    induction polls with
    | nil => rfl
    | cons g gs ih =>
      simp only [List.all_cons, Bool.and_eq_true] at hall
      obtain ⟨hg, hgs⟩ := hall
      cases g with
      | error e2 => simp [isReadablePoll] at hg
      | ok j => simpa [retryLoop, deletePollStep] using ih hgs

/-- A sample server-side Job object used by concrete witnesses. -/
def sampleJob : Job :=
  { metadata := { name := "myjob", nspace := "ns", labels := [("app", "web")] },
    spec := { selector := some { matchLabels := [] } } }

theorem claim_C1_delete_polling_witness :
    retryLoop "myjob" [.ok sampleJob, .error (.statusError 404 "not found"),
      .ok sampleJob] = .success ∧
    retryLoop "myjob" [.ok sampleJob, .error (.otherError "connection refused"),
      .error (.statusError 404 "not found")] = .fatal (.otherError "connection refused") ∧
    retryLoop "myjob" [.ok sampleJob, .ok sampleJob, .ok sampleJob] = .timeout :=
  ⟨claim_C1_delete_polling.1 "myjob" [.ok sampleJob] [.ok sampleJob]
      (.statusError 404 "not found") rfl rfl,
   claim_C1_delete_polling.2.1 "myjob" [.ok sampleJob] [.error (.statusError 404 "not found")]
      (.otherError "connection refused") rfl rfl,
   claim_C1_delete_polling.2.2 "myjob" [.ok sampleJob, .ok sampleJob, .ok sampleJob] rfl⟩

/-- C5: for every delete invocation whose identifier parses, the stored
identifier ends up cleared exactly when the remote delete call succeeded
and the polling loop confirmed deletion; when the initial delete call
fails, the loop aborts on a fatal error, or the loop times out, the
returned error is surfaced and the identifier is left unchanged. -/
theorem claim_C5_delete_clears_id (id : String) (del : Except GoError Unit)
    (polls : List (Except GoError Job)) (nspace name : String)
    (hid : idParts id = .ok (nspace, name)) :
    ((resourceKubernetesJobDelete id del polls).2 = "" ↔
      del = .ok () ∧ retryLoop name polls = .success) ∧
    (∀ e, del = .error e →
      resourceKubernetesJobDelete id del polls = (.error e, id)) ∧
    (∀ e, del = .ok () → retryLoop name polls = .fatal e →
      resourceKubernetesJobDelete id del polls = (.error e, id)) ∧
    (del = .ok () → retryLoop name polls = .timeout →
      resourceKubernetesJobDelete id del polls =
        (.error (deleteTimeoutError name), id)) := by
  have hne : id ≠ "" := idParts_ne_empty hid
  refine ⟨?_, ?_, ?_, ?_⟩
  · unfold resourceKubernetesJobDelete
    rw [hid]
    cases del with
    | error e => simp [hne]
    | ok u =>
      cases u
      cases hr : retryLoop name polls with
      | success => simp [hr]
      | fatal e => simp [hr, hne]
      | timeout => simp [hr, hne]
  · intro e hdel
    subst hdel
    simp [resourceKubernetesJobDelete, hid]
  · intro e hdel hr
    subst hdel
    simp [resourceKubernetesJobDelete, hid, hr]
  · intro hdel hr
    subst hdel
    simp [resourceKubernetesJobDelete, hid, hr]

theorem claim_C5_delete_clears_id_witness :
    ((resourceKubernetesJobDelete "ns/myjob" (.ok ())
        [.error (.statusError 404 "not found")]).2 = "" ↔
      (.ok () : Except GoError Unit) = .ok () ∧
      retryLoop "myjob" [.error (.statusError 404 "not found")] = .success) ∧
    resourceKubernetesJobDelete "ns/myjob" (.error (.otherError "denied")) [] =
      (.error (.otherError "denied"), "ns/myjob") ∧
    resourceKubernetesJobDelete "ns/myjob" (.ok ()) [.ok sampleJob] =
      (.error (deleteTimeoutError "myjob"), "ns/myjob") :=
  ⟨(claim_C5_delete_clears_id "ns/myjob" (.ok ())
      [.error (.statusError 404 "not found")] "ns" "myjob" rfl).1,
   (claim_C5_delete_clears_id "ns/myjob" (.error (.otherError "denied")) []
      "ns" "myjob" rfl).2.1 (.otherError "denied") rfl,
   (claim_C5_delete_clears_id "ns/myjob" (.ok ()) [.ok sampleJob]
      "ns" "myjob" rfl).2.2.2 rfl rfl⟩

/-- C4: for every update invocation, the combined ChangeSet always starts
with the metadata operations, with the spec operations appended exactly
when the spec field changed; and when serializing the combined ChangeSet
fails, the operation returns the serialization error and no remote patch
call is issued. -/
theorem claim_C4_update_marshal_failure :
    (∀ (env : UpdateEnv) (specOps : List PatchOp), env.specOps = .ok specOps →
      combinedOps env =
        .ok (env.metaOps ++ if env.hasChangeSpec then specOps else [])) ∧
    (∀ (env : UpdateEnv) (p : String × String) (ops : List PatchOp) (msg : String),
      idParts env.id = .ok p → combinedOps env = .ok ops →
      env.marshal ops = .error msg →
      resourceKubernetesJobUpdate env =
        (.error (.otherError ("Failed to marshal update operations: " ++ msg)),
          none)) := by
  constructor
  · intro env specOps hspec
    unfold combinedOps
    cases hc : env.hasChangeSpec with
    | true => simp [hspec]
    | false => simp
  · intro env p ops msg hid hops hmar
    simp [resourceKubernetesJobUpdate, hid, hops, hmar]

/-- A sample update environment whose marshaller fails, used by the C4
witness. -/
def sampleUpdateEnv : UpdateEnv :=
  { id := "ns/myjob"
    hasChangeSpec := true
    metaOps := [{ op := "replace", path := "/metadata/labels", value := some "x" }]
    specOps := .ok [{ op := "replace", path := "/spec/parallelism", value := some "3" }]
    marshal := fun _ => .error "unsupported value"
    patch := fun _ => .error (.otherError "patch must not be reached")
    readResult := .ok () }

theorem claim_C4_update_marshal_failure_witness :
    combinedOps sampleUpdateEnv =
      .ok [{ op := "replace", path := "/metadata/labels", value := some "x" },
           { op := "replace", path := "/spec/parallelism", value := some "3" }] ∧
    resourceKubernetesJobUpdate sampleUpdateEnv =
      (.error (.otherError "Failed to marshal update operations: unsupported value"),
        none) :=
  ⟨claim_C4_update_marshal_failure.1 sampleUpdateEnv
      [{ op := "replace", path := "/spec/parallelism", value := some "3" }] rfl,
   claim_C4_update_marshal_failure.2 sampleUpdateEnv ("ns", "myjob")
      [{ op := "replace", path := "/metadata/labels", value := some "x" },
       { op := "replace", path := "/spec/parallelism", value := some "3" }]
      "unsupported value" rfl rfl rfl⟩

theorem lookupLabel_filter_self (ls : List (String × String)) (key : String) :
    lookupLabel (ls.filter (fun p => p.1 != key)) key = none := by
  induction ls with
  | nil => rfl
  | cons p rest ih =>
    by_cases h : p.1 = key
    · simp [List.filter_cons, h, ih]
    · simp [List.filter_cons, h, lookupLabel, ih]

theorem lookupLabel_filter_ne (ls : List (String × String)) (key k2 : String)
    (h : k2 ≠ key) :
    lookupLabel (ls.filter (fun p => p.1 != key)) k2 = lookupLabel ls k2 := by
  induction ls with
  | nil => rfl
  | cons p rest ih =>
    by_cases hp : p.1 = key
    · have hpn : ¬p.1 = k2 := by rw [hp]; exact fun hh => h hh.symm
      simp [List.filter_cons, hp, lookupLabel, hpn, ih, Ne.symm h]
    · by_cases hpk : p.1 = k2
      · simp [List.filter_cons, hp, lookupLabel, hpk, h]
      · simp [List.filter_cons, hp, lookupLabel, hpk, ih, h]

theorem lookupLabel_delete_self (ls : List (String × String)) (key : String) :
    lookupLabel (deleteLabelIfPresent ls key) key = none := by
  unfold deleteLabelIfPresent
  by_cases h : (lookupLabel ls key).isSome
  · simp [h, lookupLabel_filter_self]
  · simp only [h, Bool.false_eq_true, if_neg, if_false]
    exact Option.not_isSome_iff_eq_none.mp h

theorem lookupLabel_delete_ne (ls : List (String × String)) (key k2 : String)
    (h : k2 ≠ key) :
    lookupLabel (deleteLabelIfPresent ls key) k2 = lookupLabel ls k2 := by
  unfold deleteLabelIfPresent
  by_cases hs : (lookupLabel ls key).isSome
  · simp [hs, lookupLabel_filter_ne _ _ _ h]
  · simp [hs]

/-- The Job object as the read path projects it into configuration state
when manual selector control is off: the auto-injected labels
`controller-uid` and `job-name` removed from the metadata labels and
`controller-uid` removed from the selector match labels. -/
def stripJobLabels (job : Job) (sel : LabelSelector) : Job :=
  let strippedLabels :=
    deleteLabelIfPresent (deleteLabelIfPresent job.metadata.labels "controller-uid") "job-name"
  let strippedSel := deleteLabelIfPresent sel.matchLabels "controller-uid"
  { metadata :=
      { name := job.metadata.name, nspace := job.metadata.nspace, labels := strippedLabels },
    spec := { selector := some { matchLabels := strippedSel } } }

/-- C6: for every job returned by the remote get during Read, when the user
has not opted into manual selector control the projected object has the
auto-injected labels `controller-uid` and `job-name` removed from its
metadata labels and every other label preserved; when the user has opted
into manual control, the object is projected unchanged. -/
theorem claim_C6_read_strips_labels (id : String)
    (get : String → String → Except GoError Job) (nspace name : String)
    (job : Job) (sel : LabelSelector) (key : String)
    (hid : idParts id = .ok (nspace, name))
    (hget : get nspace name = .ok job)
    (hsel : job.spec.selector = some sel)
    (hk1 : key ≠ "controller-uid") (hk2 : key ≠ "job-name") :
    resourceKubernetesJobRead id false get = .ok (stripJobLabels job sel) ∧
    lookupLabel (stripJobLabels job sel).metadata.labels "controller-uid" = none ∧
    lookupLabel (stripJobLabels job sel).metadata.labels "job-name" = none ∧
    lookupLabel (stripJobLabels job sel).metadata.labels key =
      lookupLabel job.metadata.labels key ∧
    resourceKubernetesJobRead id true get = .ok job := by
  have hlabels : (stripJobLabels job sel).metadata.labels =
      deleteLabelIfPresent (deleteLabelIfPresent job.metadata.labels
        "controller-uid") "job-name" := rfl
  refine ⟨?_, ?_, ?_, ?_, ?_⟩
  · simp [resourceKubernetesJobRead, hid, hget, normalizeJobLabels, hsel,
      stripJobLabels]
  · rw [hlabels, lookupLabel_delete_ne _ _ _ (by decide), lookupLabel_delete_self]
  · rw [hlabels, lookupLabel_delete_self]
  · rw [hlabels, lookupLabel_delete_ne _ _ _ hk2, lookupLabel_delete_ne _ _ _ hk1]
  · simp [resourceKubernetesJobRead, hid, hget, normalizeJobLabels]

/-- A sample server-side Job carrying both auto-injected labels and a user
label, used by the C6 witness. -/
def labeledJob : Job :=
  { metadata :=
      { name := "myjob", nspace := "ns",
        labels := [("controller-uid", "u1"), ("job-name", "myjob"), ("app", "web")] },
    spec := { selector := some { matchLabels := [("controller-uid", "u1")] } } }

theorem claim_C6_read_strips_labels_witness :
    resourceKubernetesJobRead "ns/myjob" false (fun _ _ => .ok labeledJob) =
      .ok (stripJobLabels labeledJob { matchLabels := [("controller-uid", "u1")] }) ∧
    lookupLabel (stripJobLabels labeledJob
      { matchLabels := [("controller-uid", "u1")] }).metadata.labels
      "controller-uid" = none ∧
    lookupLabel (stripJobLabels labeledJob
      { matchLabels := [("controller-uid", "u1")] }).metadata.labels
      "job-name" = none ∧
    lookupLabel (stripJobLabels labeledJob
      { matchLabels := [("controller-uid", "u1")] }).metadata.labels "app" =
      lookupLabel labeledJob.metadata.labels "app" ∧
    resourceKubernetesJobRead "ns/myjob" true (fun _ _ => .ok labeledJob) =
      .ok labeledJob :=
  claim_C6_read_strips_labels "ns/myjob" (fun _ _ => .ok labeledJob) "ns" "myjob"
    labeledJob { matchLabels := [("controller-uid", "u1")] } "app"
    rfl rfl rfl (by decide) (by decide)

/-- C10: when manual selector control is off, the Read path dereferences
the selector pointer of the server-returned job unconditionally, so a job
with a nil selector makes the label-normalization branch fault with a
nil-pointer panic instead of returning an error. -/
theorem claim_C10_read_nil_selector_faults (id : String)
    (get : String → String → Except GoError Job) (nspace name : String)
    (job : Job)
    (hid : idParts id = .ok (nspace, name))
    (hget : get nspace name = .ok job)
    (hsel : job.spec.selector = none) :
    resourceKubernetesJobRead id false get = .panicked nilDerefMsg := by
  simp [resourceKubernetesJobRead, hid, hget, normalizeJobLabels, hsel]

/-- A sample server-side Job with a nil selector pointer, used by the C10
witness. -/
def nilSelectorJob : Job :=
  { metadata := { name := "myjob", nspace := "ns", labels := [("app", "web")] },
    spec := { selector := none } }

theorem claim_C10_read_nil_selector_faults_witness :
    resourceKubernetesJobRead "ns/myjob" false (fun _ _ => .ok nilSelectorJob) =
      .panicked nilDerefMsg :=
  claim_C10_read_nil_selector_faults "ns/myjob" (fun _ _ => .ok nilSelectorJob)
    "ns" "myjob" nilSelectorJob rfl rfl rfl

/-- `true` when the first character list is a prefix of the second. -/
def startsWithList : List Char → List Char → Bool
  | [], _ => true
  | _ :: _, [] => false
  | p :: ps, c :: cs => p = c && startsWithList ps cs

/-- `true` when the first character list occurs contiguously inside the
second; used to state that an error message names a given string. -/
def isSubList (pat : List Char) : List Char → Bool
  | [] => pat.isEmpty
  | c :: cs => startsWithList pat (c :: cs) || isSubList pat cs

/-- C8: `CIDRNetwork(8,24)` accepts `10.0.0.0/16` with zero errors; rejects
the non-canonical `10.0.0.1/16` with exactly one error, whose message
contains the canonical form `10.0.0.0/16`; and rejects `10.0.0.0/4` with
an error list containing the out-of-bound prefix-length error for 4
significant bits against the inclusive bound 8..24. -/
theorem claim_C8_cidr_examples :
    CIDRNetwork 8 24 (GoVal.str "10.0.0.0/16") "k" = .returns [] [] ∧
    CIDRNetwork 8 24 (GoVal.str "10.0.0.1/16") "k" =
      .returns [] [canonicalMsg "k" "10.0.0.0/16" "10.0.0.1/16"] ∧
    isSubList "10.0.0.0/16".data
      (canonicalMsg "k" "10.0.0.0/16" "10.0.0.1/16").data = true ∧
    (CIDRNetwork 8 24 (GoVal.str "10.0.0.0/4") "k").errors ≠ [] ∧
    sigbitsMsg 8 24 "k" 4 ∈ (CIDRNetwork 8 24 (GoVal.str "10.0.0.0/4") "k").errors :=
  ⟨by decide, by decide, by decide, by decide, by decide⟩

theorem mem_enumFrom {ss : List String} {i : Nat} {v : String} (n : Nat)
    (h : ss.get? i = some v) : (n + i, v) ∈ enumFrom n ss := by
  induction ss generalizing i n with
  | nil => simp at h
  | cons s rest ih =>
    cases i with
    | zero =>
      simp only [List.get?] at h
      cases h
      simp [enumFrom]
    | succ j =>
      simp only [List.get?] at h
      have hmem := ih (n := n + 1) h
      have heq : n + (j + 1) = (n + 1) + j := by omega
      rw [heq]
      exact List.mem_cons_of_mem _ hmem

theorem enumFrom_mem_get? {ss : List String} {n : Nat} {p : Nat × String}
    (h : p ∈ enumFrom n ss) : n ≤ p.1 ∧ ss.get? (p.1 - n) = some p.2 := by
  induction ss generalizing n with
  | nil => simp [enumFrom] at h
  | cons s rest ih =>
    simp only [enumFrom, List.mem_cons] at h
    rcases h with h | h
    · subst h
      simp
    · obtain ⟨h1, h2⟩ := ih (n := n + 1) h
      refine ⟨by omega, ?_⟩
      have heq : p.1 - n = (p.1 - (n + 1)) + 1 := by omega
      rw [heq]
      simpa using h2

theorem dupMsg_mem_dupPairErrors {k : String} {ss : List String} {i j : Nat}
    {v : String} (hij : i ≠ j) (hi : ss.get? i = some v)
    (hj : ss.get? j = some v) : dupMsg k v ∈ dupPairErrors k ss := by
  unfold dupPairErrors
  rw [List.mem_flatMap]
  refine ⟨(i, v), by simpa using mem_enumFrom 0 hi, ?_⟩
  rw [List.mem_flatMap]
  refine ⟨(j, v), by simpa using mem_enumFrom 0 hj, ?_⟩
  simp [hij]

theorem flatMap_eq_nil_of_forall {α β : Type} (f : α → List β) (l : List α)
    (h : ∀ a ∈ l, f a = []) : l.flatMap f = [] := by
  induction l with
  | nil => rfl
  | cons a rest ih =>
    simp only [List.flatMap_cons, h a (List.mem_cons_self a rest),
      List.nil_append]
    exact ih (fun x hx => h x (List.mem_cons_of_mem a hx))

theorem dupPairErrors_eq_nil {k : String} {ss : List String} (h : ss.Nodup) :
    dupPairErrors k ss = [] := by
  unfold dupPairErrors
  apply flatMap_eq_nil_of_forall
  intro p hp
  apply flatMap_eq_nil_of_forall
  intro q hq
  obtain ⟨-, hp2⟩ := enumFrom_mem_get? hp
  obtain ⟨-, hq2⟩ := enumFrom_mem_get? hq
  simp only [Nat.sub_zero] at hp2 hq2
  by_cases hv : p.2 = q.2
  · obtain ⟨hplt, -⟩ := List.get?_eq_some.mp hp2
    have hpq : p.1 = q.1 := by
      apply List.get?_inj hplt h
      rw [hp2, hq2, hv]
    simp [hv, hpq]
  · simp [hv]

theorem allStrings_map_str (ss : List String) :
    allStrings (ss.map GoVal.str) = some ss := by
  induction ss with
  | nil => rfl
  | cons s rest ih => simp [allStrings, ih]

/-- C9: for every list of strings fed to the uniqueness validator, the
validator returns exactly the duplicate errors of the ordered pairwise
scan; any two equal elements at distinct positions contribute a duplicate
error mentioning the duplicated value, so the error list is nonempty; a
pairwise-distinct list yields zero errors; in particular, on
`["a","b","a"]` the validator reports the duplicate error for `"a"` once
per ordered duplicate pair, and on `["a","b","c"]` it reports none. -/
theorem claim_C9_unique_strings (k : String) (ss : List String) (i j : Nat)
    (v : String) :
    (i ≠ j → ss.get? i = some v → ss.get? j = some v →
      ValidateListUniqueStrings (GoVal.list (ss.map GoVal.str)) k =
        .returns [] (dupPairErrors k ss) ∧
      dupMsg k v ∈ dupPairErrors k ss ∧ dupPairErrors k ss ≠ []) ∧
    (ss.Nodup →
      ValidateListUniqueStrings (GoVal.list (ss.map GoVal.str)) k =
        .returns [] []) ∧
    ValidateListUniqueStrings
      (GoVal.list [.str "a", .str "b", .str "a"]) "key" =
      .returns [] [dupMsg "key" "a", dupMsg "key" "a"] ∧
    ValidateListUniqueStrings
      (GoVal.list [.str "a", .str "b", .str "c"]) "key" = .returns [] [] := by
  refine ⟨?_, ?_, by decide, by decide⟩
  · intro hij hi hj
    have hmem := dupMsg_mem_dupPairErrors (k := k) hij hi hj
    exact ⟨by simp [ValidateListUniqueStrings, allStrings_map_str],
      hmem, List.ne_nil_of_mem hmem⟩
  · intro hnd
    simp [ValidateListUniqueStrings, allStrings_map_str, dupPairErrors_eq_nil hnd]

theorem claim_C9_unique_strings_witness :
    (ValidateListUniqueStrings
      (GoVal.list (["a", "b", "a"].map GoVal.str)) "key" =
      .returns [] (dupPairErrors "key" ["a", "b", "a"]) ∧
      dupMsg "key" "a" ∈ dupPairErrors "key" ["a", "b", "a"] ∧
      dupPairErrors "key" ["a", "b", "a"] ≠ []) ∧
    ValidateListUniqueStrings
      (GoVal.list (["a", "b", "c"].map GoVal.str)) "key" = .returns [] [] :=
  ⟨(claim_C9_unique_strings "key" ["a", "b", "a"] 0 2 "a").1 (by decide)
      (by decide) (by decide),
   (claim_C9_unique_strings "key" ["a", "b", "c"] 0 0 "a").2.1 (by decide)⟩

/-- C2 counterexample: the claim that every validator in the validation
package never panics on a wrong-type input fails: `ValidateRegexp` applied
to a non-string value and `ValidateListUniqueStrings` applied to a
non-list value both panic on their unchecked Go type assertions instead of
returning an "expected type" error. -/
theorem claim_C2_counterexample :
    ValidateRegexp (fun _ => none) (GoVal.int 0) "k" =
      .panicked interfaceConversionMsg ∧
    ValidateListUniqueStrings (GoVal.str "x") "k" =
      .panicked interfaceConversionMsg :=
  ⟨rfl, rfl⟩

/-- C2 amended: the validators that check their type assertion —
`IntBetween`, `IntAtLeast`, `IntAtMost`, `StringInSlice`,
`StringLenBetween` and `CIDRNetwork` — return exactly one "expected type"
error and perform no further checks on a wrong-type input; the two
validators with unchecked assertions, `ValidateRegexp` on a non-string
value and `ValidateListUniqueStrings` on a non-list value, panic instead. -/
theorem claim_C2_amended_type_mismatch (v : GoVal) (k : String) (lo hi : Int)
    (valid : List String) (ignoreCase : Bool)
    (compileErr : String → Option String) :
    (v.isInt = false →
      IntBetween lo hi v k = .returns [] [typeErrorInt k] ∧
      IntAtLeast lo v k = .returns [] [typeErrorInt k] ∧
      IntAtMost hi v k = .returns [] [typeErrorInt k]) ∧
    (v.isStr = false →
      StringInSlice valid ignoreCase v k = .returns [] [typeErrorString k] ∧
      StringLenBetween lo hi v k = .returns [] [typeErrorString k] ∧
      CIDRNetwork lo hi v k = .returns [] [typeErrorString k] ∧
      ValidateRegexp compileErr v k = .panicked interfaceConversionMsg) ∧
    (v.isList = false →
      ValidateListUniqueStrings v k = .panicked interfaceConversionMsg) := by
  refine ⟨?_, ?_, ?_⟩ <;> intro h <;> cases v <;>
    first
    | exact Bool.noConfusion h
    | simp [IntBetween, IntAtLeast, IntAtMost, StringInSlice, StringLenBetween,
        CIDRNetwork, ValidateRegexp, ValidateListUniqueStrings]

theorem claim_C2_amended_type_mismatch_witness :
    (IntBetween 1 10 (GoVal.bool true) "k" = .returns [] [typeErrorInt "k"] ∧
      IntAtLeast 1 (GoVal.bool true) "k" = .returns [] [typeErrorInt "k"] ∧
      IntAtMost 10 (GoVal.bool true) "k" = .returns [] [typeErrorInt "k"]) ∧
    (StringInSlice ["x"] false (GoVal.bool true) "k" =
        .returns [] [typeErrorString "k"] ∧
      StringLenBetween 1 10 (GoVal.bool true) "k" =
        .returns [] [typeErrorString "k"] ∧
      CIDRNetwork 1 10 (GoVal.bool true) "k" =
        .returns [] [typeErrorString "k"] ∧
      ValidateRegexp (fun _ => none) (GoVal.bool true) "k" =
        .panicked interfaceConversionMsg) ∧
    ValidateListUniqueStrings (GoVal.bool true) "k" =
      .panicked interfaceConversionMsg :=
  ⟨(claim_C2_amended_type_mismatch (GoVal.bool true) "k" 1 10 ["x"] false
      (fun _ => none)).1 rfl,
   ((claim_C2_amended_type_mismatch (GoVal.bool true) "k" 1 10 ["x"] false
      (fun _ => none)).2.1) rfl,
   ((claim_C2_amended_type_mismatch (GoVal.bool true) "k" 1 10 ["x"] false
      (fun _ => none)).2.2) rfl⟩
